import Mathlib

/-!
Shallow embedding of the nicojahn/nicojahn README generator, translated from
`src/main.py` (the current, importable implementation; `src/update.py` is an
earlier draft of the same program that does not parse due to a stray brace on
its line 107, and `src/data.py` only holds constants).

Two cores are embedded:

* the tag-replacement engine `UpdateREADME` (`_process_lines`,
  `_extract_key_value_pair`, `_replace_tag_in_line`, `update_content`), and
* the GitHub activity selector (`get_first_n_recent_projects`,
  `get_single_most_recent_project`, `get_github_activity`).

Python strings are modelled as `List Char`; Python `None`/`str` values as
`Option`; exceptions escaping a call as `Except String`.  `re.sub` is called
by the source with the pattern `tag + re.escape(value) + tag`: `re.escape`
makes the value part literal, and for keys free of regex metacharacters the
whole pattern is a literal string, so it is modelled as literal
replace-all-occurrences; the replacement argument of `re.sub` is a Python
replacement template, modelled by `parse_template` below.
-/

namespace ReadmeGen

/-- A Python string, modelled as its list of characters. -/
abbrev Str := List Char

/-- `UpdateREADME.open_seq` (src/main.py line 184): the tag opening sequence. -/
def open_seq : Str := "<!-- ".data

/-- `UpdateREADME.close_seq` (src/main.py line 189): the tag closing sequence. -/
def close_seq : Str := " -->".data

/-- Python substring containment `needle in haystack`. -/
def pyIn (needle : Str) : Str → Bool
  | [] => needle.isEmpty
  | c :: rest => needle.isPrefixOf (c :: rest) || pyIn needle rest

/-- Fuel-driven core of `pySplit`.  One unit of fuel is spent per character
consumed, so fuel `s.length` always suffices for a non-empty separator. -/
def splitOnFuel (sep : Str) : Nat → Str → List Str
  | _, [] => [[]]
  | 0, s => [s]
  | fuel + 1, c :: rest =>
    if sep.isPrefixOf (c :: rest) then
      [] :: splitOnFuel sep fuel (List.drop sep.length (c :: rest))
    else
      match splitOnFuel sep fuel rest with
      | [] => [[c]]
      | seg :: segs => (c :: seg) :: segs

/-- Python `s.split(sep)` for a non-empty separator: the ordered segments of
`s` between non-overlapping leftmost occurrences of `sep`. -/
def pySplit (sep s : Str) : List Str := splitOnFuel sep s.length s

/-- The sliding windows of src/main.py lines 229-232:
`[line_split[i : i + 2] for i, _ in enumerate(line_split[: 1 - 2])]`,
i.e. every two consecutive segments of the split line. -/
def windows (segs : List Str) : List (List Str) :=
  (List.range (segs.length - 1)).map (fun i => (segs.drop i).take 2)

/-- `UpdateREADME._is_none` (src/main.py line 204): Python `i == None`. -/
def is_none (x : Option Str) : Bool := x.isNone

/-- `UpdateREADME._is_not_none` (src/main.py line 209): Python
`i == (not None)`, which is `i == True`.  The values flowing in are either
`None` or strings, and neither compares equal to `True`, so this helper is
constantly `False` on the program's value domain. -/
def is_not_none (_x : Option Str) : Bool := false

/-- `UpdateREADME._both_are_none` (src/main.py line 300):
`reduce(and, map(is_none, [key, value]))`. -/
def both_are_none (key value : Option Str) : Bool := is_none key && is_none value

/-- `UpdateREADME._both_are_not_none` (src/main.py line 304):
`reduce(equals, map(is_not_none, [key, value]))`: the equality of the two
(constantly false) `is_not_none` results, hence constantly `True`. -/
def both_are_not_none (key value : Option Str) : Bool :=
  is_not_none key == is_not_none value

/-- `UpdateREADME._are_different_tags` (src/main.py lines 306-314):
`reduce(equals, map(lambda x: not equals(*x), zip([key, value], key_value)))`.
`zip` truncates to the shorter list; for a `key_value` with at least two
components this is `(key != kv0) == (value != kv1)`.  Python's `reduce` over
an empty sequence would raise, but `key_value` comes from `str.split`, which
never returns an empty list, so the `[]` case is unreachable. -/
def are_different_tags (key value : Str) (key_value : List Str) : Bool :=
  match key_value with
  | [] => false
  | [a] => decide (key ≠ a)
  | a :: b :: _ => decide (key ≠ a) == decide (value ≠ b)

/-- Loop body of `UpdateREADME._extract_key_value_pair` (src/main.py lines
253-274), carrying the pending `key, value` state over the window's elements.
A `break` returns the current state; the reset branch returns `(none, none)`. -/
def extract_key_value_pairAux : List Str → Option Str → Option Str →
    Option Str × Option Str
  | [], key, value => (key, value)
  | elem :: rest, key, value =>
    if pyIn close_seq elem = false then (key, value)
    else
      let key_value := pySplit close_seq elem
      match key_value with
      | [a, b] =>
        if both_are_none key value then
          extract_key_value_pairAux rest (some a) (some b)
        else if both_are_not_none key value then
          match key, value with
          | some k, some v =>
            if are_different_tags k v key_value then (none, none)
            else extract_key_value_pairAux rest key value
          | _, _ => extract_key_value_pairAux rest key value
        else extract_key_value_pairAux rest key value
      | _ =>
        if both_are_not_none key value then
          match key, value with
          | some k, some v =>
            if are_different_tags k v key_value then (none, none)
            else extract_key_value_pairAux rest key value
          | _, _ => extract_key_value_pairAux rest key value
        else extract_key_value_pairAux rest key value

/-- `UpdateREADME._extract_key_value_pair` (src/main.py lines 242-274). -/
def extract_key_value_pair (tup : List Str) : Option Str × Option Str :=
  extract_key_value_pairAux tup none none

/-- The information store `self.information`: an association list mirroring the
Python dict (unique keys, insertion order). -/
abbrev Store := List (Str × Str)

/-- The lookup loop of src/main.py lines 287-288: scan `self.keys` for the
first key equal to `key` and return `self.information[key]`. -/
def lookupKey : Store → Str → Option Str
  | [], _ => none
  | (k, v) :: rest, key => if k = key then some v else lookupKey rest key

/-- Characters that are special in a Python regular expression.  A key made of
other characters yields a literal `re.sub` pattern (the value part is always
literal because the source passes it through `re.escape`). -/
def regexSpecialChars : Str :=
  ['.', '^', '$', '*', '+', '?', '{', '}', '[', ']', '(', ')', '|', '\\']

/-- A store key whose characters are all regex-ordinary, so that the pattern
`open_seq ++ key ++ close_seq ++ value ++ open_seq ++ key ++ close_seq`
built by `_replace_tag_in_line` compiles and matches literally. -/
def plainKey (k : Str) : Bool := k.all (fun c => !(regexSpecialChars.contains c))

/-- Python `re` replacement-template expansion (`sre_parse.parse_template`)
applied to the template `tmpl`, where every match equals the literal pattern
`matched`: `\\` and the ASCII escapes `\a \b \f \n \r \t \v` are interpreted,
`\0` is an octal escape for NUL, `\g<0>` inserts the whole match, a numeric
group reference is an error (the literal pattern has no groups), an unknown
ASCII-letter escape is an error, any other escaped character is kept with its
backslash, and a trailing lone backslash is an error. -/
def parse_template (matched : Str) : Str → Except String Str
  | [] => .ok []
  | c :: rest =>
    if c = '\\' then
      match rest with
      | [] => .error "bad escape (end of pattern)"
      | e :: rest' =>
        if e = '\\' then (fun l => '\\' :: l) <$> parse_template matched rest'
        else if e = 'a' then (fun l => (Char.ofNat 7) :: l) <$> parse_template matched rest'
        else if e = 'b' then (fun l => (Char.ofNat 8) :: l) <$> parse_template matched rest'
        else if e = 'f' then (fun l => (Char.ofNat 12) :: l) <$> parse_template matched rest'
        else if e = 'n' then (fun l => '\n' :: l) <$> parse_template matched rest'
        else if e = 'r' then (fun l => (Char.ofNat 13) :: l) <$> parse_template matched rest'
        else if e = 't' then (fun l => '\t' :: l) <$> parse_template matched rest'
        else if e = 'v' then (fun l => (Char.ofNat 11) :: l) <$> parse_template matched rest'
        else if e = '0' then (fun l => (Char.ofNat 0) :: l) <$> parse_template matched rest'
        else if e.isDigit then .error "invalid group reference"
        else if e = 'g' then
          match rest' with
          | '<' :: '0' :: '>' :: rest'' =>
            (fun l => matched ++ l) <$> parse_template matched rest''
          | _ => .error "bad group reference"
        else if e.isAlpha then .error "bad escape"
        else (fun l => '\\' :: e :: l) <$> parse_template matched rest'
    else (fun l => c :: l) <$> parse_template matched rest

/-- Fuel-driven core of `replaceAll`; fuel `s.length` suffices for a non-empty
pattern since each step consumes at least one character. -/
def replaceAllFuel (pat repl : Str) : Nat → Str → Str
  | _, [] => []
  | 0, s => s
  | fuel + 1, c :: rest =>
    if pat.isPrefixOf (c :: rest) then
      repl ++ replaceAllFuel pat repl fuel (List.drop pat.length (c :: rest))
    else c :: replaceAllFuel pat repl fuel rest

/-- Literal `re.sub`: replace every non-overlapping leftmost occurrence of the
(non-empty, literal) pattern by `repl`. -/
def replaceAll (pat repl s : Str) : Str := replaceAllFuel pat repl s.length s

/-- `UpdateREADME._replace_tag_in_line` (src/main.py lines 276-296): when the
extracted key is one of the store's keys, run
`re.sub(tag + re.escape(value) + tag, information[key], line)`. The whole
matched span `<!-- key -->value<!-- key -->` is substituted by the expanded
replacement template (Python parses the template before scanning, so a bad
template raises even when the pattern does not occur). -/
def replace_tag_in_line (store : Store) (line key value : Str) :
    Except String Str :=
  match lookupKey store key with
  | none => .ok line
  | some newVal =>
    let tag := open_seq ++ key ++ close_seq
    let patt := tag ++ value ++ tag
    match parse_template patt newVal with
    | .error e => .error e
    | .ok repl => .ok (replaceAll patt repl line)

/-- The window loop of `UpdateREADME._process_lines` (src/main.py lines
234-238): fold the confirmed replacements over the evolving line. -/
def process_windows (store : Store) : List (List Str) → Str → Except String Str
  | [], line => .ok line
  | tup :: rest, line =>
    match extract_key_value_pair tup with
    | (some key, some value) =>
      match replace_tag_in_line store line key value with
      | .error e => .error e
      | .ok line' => process_windows store rest line'
    | _ => process_windows store rest line

/-- `UpdateREADME._process_lines` (src/main.py lines 211-240): fast path for
lines without the opening sequence, otherwise scan the sliding windows of the
split line and apply each confirmed replacement. -/
def process_lines (store : Store) (line : Str) : Except String Str :=
  if pyIn open_seq line = false then .ok line
  else process_windows store (windows (pySplit open_seq line)) line

/-- `UpdateREADME.update_content` (src/main.py lines 316-324):
`list(map(self._process_lines, self.content))`, with the first exception of
any line propagating. -/
def update_content (store : Store) : List Str → Except String (List Str)
  | [] => .ok []
  | line :: rest =>
    match process_lines store line with
    | .error e => .error e
    | .ok line' =>
      match update_content store rest with
      | .error e => .error e
      | .ok rest' => .ok (line' :: rest')

/-! ## ActivitySelector (src/main.py lines 23-137)

`get_github_activity` fetches the repository list from the GitHub API and
derives the digest; the HTTP request and the `datetime` arithmetic are
external collaborators, so the embedding takes the already-fetched record
list and the pure day-count function `daysSince` (the closure
`calculate_days_since_update`, determined by the run's `DT_DATE` snapshot) as
parameters.  The source fixes `user = GITHUB_USER_NAME = "nicojahn"`
(src/data.py line 13); the embedding keeps it as a parameter. -/

/-- `MAX_RECENT_ACTIVITY` (src/data.py line 15). -/
def MAX_RECENT_ACTIVITY : Int := 14

/-- `MAX_REPOS_LISTED` (src/data.py line 16). -/
def MAX_REPOS_LISTED : Nat := 5

/-- One element of the GitHub API response, with the fields the source reads. -/
structure RepoRecord where
  full_name : String
  html_url : String
  updated_at : String
  language : Option String

/-- `create_repository_description` (src/main.py lines 92-107): `None` for the
profile repository `"{user}/{user}"`, otherwise the formatted description. -/
def create_repository_description (user : String) (daysSince : String → Int)
    (r : RepoRecord) : Option String :=
  if r.full_name = user ++ "/" ++ user then none
  else
    some ("repository [" ++ r.full_name ++ "](" ++ r.html_url ++
      ") which was updated " ++ toString (daysSince r.updated_at) ++
      " days ago" ++
      (match r.language with
       | some lang => " and is mainly written in " ++ lang
       | none => ""))

/-- A ranked entry `[days_since_update, repo_description]`
(src/main.py lines 119-126). -/
abbrev Entry := Int × Option String

/-- The per-record pair built in the comprehension of src/main.py
lines 120-126. -/
def repo_entry (user : String) (daysSince : String → Int) (r : RepoRecord) :
    Entry := (daysSince r.updated_at, create_repository_description user daysSince r)

/-- Insert an element into an already-sorted list, before the first element
whose key is not smaller.  This places the inserted element ahead of any
equal-keyed elements, which is exactly the stable placement Python's `sorted`
gives an element relative to list elements that follow it. -/
def insertEntry (x : Entry) : List Entry → List Entry
  | [] => [x]
  | y :: rest => if y.1 < x.1 then y :: insertEntry x rest else x :: y :: rest

/-- Python `sorted(entries, key=lambda t: t[0] ...)` (src/main.py lines
119-130): stable ascending sort by the day count (the key's `isinstance`
guard is vacuous since the day count is always an `int`).  Modelled as a
stable insertion sort. -/
def pySorted (l : List Entry) : List Entry := l.foldr insertEntry []

/-- Loop body of `get_first_n_recent_projects` (src/main.py lines 34-47):
`count` is the walrus-updated counter; it advances on every qualifying entry
and the description is appended only while `count <= MAX_REPOS_LISTED`. -/
def get_first_n_aux : List Entry → Nat → List String
  | [], _ => []
  | (d, desc) :: rest, count =>
    match desc with
    | some s =>
      if d < MAX_RECENT_ACTIVITY then
        if count + 1 ≤ MAX_REPOS_LISTED then s :: get_first_n_aux rest (count + 1)
        else get_first_n_aux rest (count + 1)
      else get_first_n_aux rest count
    | none => get_first_n_aux rest count

/-- `get_first_n_recent_projects` (src/main.py lines 23-47). -/
def get_first_n_recent_projects (l : List Entry) : List String :=
  get_first_n_aux l 0

/-- `get_single_most_recent_project` (src/main.py lines 50-70): the singleton
of the first entry whose description is a string, else the empty list. -/
def get_single_most_recent_project : List Entry → List String
  | [] => []
  | (_, some s) :: _ => [s]
  | (_, none) :: rest => get_single_most_recent_project rest

/-- The sorted entry list `all_repositories` of src/main.py lines 119-130. -/
def all_repositories (user : String) (daysSince : String → Int)
    (req : List RepoRecord) : List Entry :=
  pySorted (req.map (repo_entry user daysSince))

/-- `get_github_activity` (src/main.py lines 73-137), with the HTTP response
and the day-count closure passed in: select the recent projects, fall back to
the single most recent one when none qualifies, join with " as well as ". -/
def get_github_activity (user : String) (daysSince : String → Int)
    (req : List RepoRecord) : String :=
  String.intercalate " as well as "
    (if (get_first_n_recent_projects (all_repositories user daysSince req)).length = 0
     then get_single_most_recent_project (all_repositories user daysSince req)
     else get_first_n_recent_projects (all_repositories user daysSince req))

/-- Claim-side predicate: an entry qualifies for the recency window when its
description is present and its day count is below `MAX_RECENT_ACTIVITY`. -/
def qualifies (e : Entry) : Bool := e.2.isSome && decide (e.1 < MAX_RECENT_ACTIVITY)

/-- Claim-side projection: the description carried by an entry. -/
def entryDescription (e : Entry) : String := e.2.getD ""

/-! ## Helper lemmas: tag engine -/

theorem lookupKey_nil (key : Str) : lookupKey [] key = none := rfl

theorem lookupKey_cons (k v : Str) (rest : Store) (key : Str) :
    lookupKey ((k, v) :: rest) key =
      if k = key then some v else lookupKey rest key := rfl

theorem process_windows_nil (store : Store) (line : Str) :
    process_windows store [] line = .ok line := rfl

theorem process_windows_cons (store : Store) (tup : List Str)
    (rest : List (List Str)) (line : Str) :
    process_windows store (tup :: rest) line =
      match extract_key_value_pair tup with
      | (some key, some value) =>
        match replace_tag_in_line store line key value with
        | .error e => .error e
        | .ok line' => process_windows store rest line'
      | _ => process_windows store rest line := rfl

theorem update_content_nil (store : Store) : update_content store [] = .ok [] := rfl

theorem update_content_cons (store : Store) (line : Str) (rest : List Str) :
    update_content store (line :: rest) =
      match process_lines store line with
      | .error e => .error e
      | .ok line' =>
        match update_content store rest with
        | .error e => .error e
        | .ok rest' => .ok (line' :: rest') := rfl

/-- A template without backslashes expands to itself. -/
theorem parse_template_no_backslash (matched : Str) :
    ∀ t : Str, t.all (fun c => !(c == '\\')) = true →
      parse_template matched t = .ok t := by
  intro t
  induction t with
  | nil => intro _; rfl
  | cons c rest ih =>
    intro h
    simp only [List.all_cons, Bool.and_eq_true, Bool.not_eq_true'] at h
    obtain ⟨hc, hrest⟩ := h
    have hc' : c ≠ '\\' := by simpa using hc
    have hr := ih (by simpa using hrest)
    unfold parse_template
    rw [if_neg hc', hr]
    rfl

/-- A successful store lookup returns one of the stored values. -/
theorem lookupKey_value_all (p : Str → Bool) :
    ∀ (store : Store) (key v : Str),
      store.all (fun kv => p kv.2) = true → lookupKey store key = some v →
      p v = true := by
  intro store
  induction store with
  | nil => intro key v _ h; rw [lookupKey_nil] at h; cases h
  | cons kv rest ih =>
    obtain ⟨k1, v1⟩ := kv
    intro key v hall h
    simp only [List.all_cons, Bool.and_eq_true] at hall
    obtain ⟨hv, hrest⟩ := hall
    rw [lookupKey_cons] at h
    by_cases hk : k1 = key
    · rw [if_pos hk] at h
      cases h
      exact hv
    · rw [if_neg hk] at h
      exact ih key v hrest h

/-- A key that is not in the store leaves the line alone (the `for k in
self.keys` loop of `_replace_tag_in_line` finds no match). -/
theorem replace_tag_of_lookup_none (store : Store) (line key value : Str)
    (h : lookupKey store key = none) :
    replace_tag_in_line store line key value = .ok line := by
  simp [replace_tag_in_line, h]

/-- The full pattern `tag + re.escape(value) + tag` built on src/main.py
line 292. -/
def tag_pattern (key value : Str) : Str :=
  (open_seq ++ key ++ close_seq) ++ value ++ (open_seq ++ key ++ close_seq)

/-- Unfolding `_replace_tag_in_line` when the key is in the store. -/
theorem replace_tag_some (store : Store) (line key value newVal : Str)
    (h : lookupKey store key = some newVal) :
    replace_tag_in_line store line key value =
      match parse_template (tag_pattern key value) newVal with
      | .error e => .error e
      | .ok repl => .ok (replaceAll (tag_pattern key value) repl line) := by
  unfold replace_tag_in_line tag_pattern
  rw [h]

/-- When every store value is backslash-free, a single tag replacement
cannot fail. -/
theorem replace_tag_total (store : Store) (line key value : Str)
    (hvals : store.all (fun kv => kv.2.all (fun c => !(c == '\\'))) = true) :
    ∃ out, replace_tag_in_line store line key value = .ok out := by
  cases h : lookupKey store key with
  | none => exact ⟨line, replace_tag_of_lookup_none store line key value h⟩
  | some newVal =>
    have hbs := lookupKey_value_all (fun v => v.all (fun c => !(c == '\\')))
      store key newVal hvals h
    have hstep := replace_tag_some store line key value newVal h
    rw [parse_template_no_backslash _ _ hbs] at hstep
    exact ⟨_, hstep⟩

/-- When every store value is backslash-free, the window loop cannot fail. -/
theorem process_windows_total (store : Store)
    (hvals : store.all (fun kv => kv.2.all (fun c => !(c == '\\'))) = true) :
    ∀ (tups : List (List Str)) (line : Str),
      ∃ out, process_windows store tups line = .ok out := by
  intro tups
  induction tups with
  | nil => intro line; exact ⟨line, rfl⟩
  | cons tup rest ih =>
    intro line
    rw [process_windows_cons]
    cases hkv : extract_key_value_pair tup with
    | mk k v =>
      match k, v with
      | none, v => exact ih line
      | some key, none => exact ih line
      | some key, some value =>
        obtain ⟨out, hout⟩ := replace_tag_total store line key value hvals
        show ∃ o, (match replace_tag_in_line store line key value with
          | Except.error e => Except.error e
          | Except.ok line' => process_windows store rest line') = Except.ok o
        rw [hout]
        exact ih out

/-- When no window's confirmed key is a store key, the window loop returns
the line unchanged. -/
theorem process_windows_skip (store : Store) :
    ∀ (tups : List (List Str)) (line : Str),
      (tups.all (fun tup =>
        match extract_key_value_pair tup with
        | (some k, some _) => (lookupKey store k).isNone
        | _ => true) = true) →
      process_windows store tups line = .ok line := by
  intro tups
  induction tups with
  | nil => intro line _; rfl
  | cons tup rest ih =>
    intro line hall
    simp only [List.all_cons, Bool.and_eq_true] at hall
    obtain ⟨htup, hrest⟩ := hall
    rw [process_windows_cons]
    cases hkv : extract_key_value_pair tup with
    | mk k v =>
      match k, v with
      | none, v => exact ih line hrest
      | some key, none => exact ih line hrest
      | some key, some value =>
        rw [hkv] at htup
        simp only [Option.isNone_iff_eq_none] at htup
        show (match replace_tag_in_line store line key value with
          | Except.error e => Except.error e
          | Except.ok line' => process_windows store rest line') = Except.ok line
        rw [replace_tag_of_lookup_none store line key value htup]
        exact ih line hrest

/-- The fast path of `_process_lines`: a line without the opening sequence is
returned unchanged. -/
theorem process_lines_no_open (store : Store) (line : Str)
    (h : pyIn open_seq line = false) :
    process_lines store line = .ok line := by
  simp [process_lines, h]

/-- A document whose lines all lack the opening sequence is returned
unchanged by the update pass. -/
theorem update_content_no_open (store : Store) :
    ∀ doc : List Str, doc.all (fun l => !(pyIn open_seq l)) = true →
      update_content store doc = .ok doc := by
  intro doc
  induction doc with
  | nil => intro _; rfl
  | cons line rest ih =>
    intro h
    simp only [List.all_cons, Bool.and_eq_true, Bool.not_eq_true'] at h
    obtain ⟨hl, hrest⟩ := h
    rw [update_content_cons, process_lines_no_open store line hl,
      ih (by simpa using hrest)]

/-- Structural content of a successful update pass: the output lines are the
per-line results, in order. -/
theorem update_content_forall₂ (store : Store) :
    ∀ (doc doc' : List Str), update_content store doc = .ok doc' →
      List.Forall₂ (fun a b => process_lines store a = .ok b) doc doc' := by
  intro doc
  induction doc with
  | nil =>
    intro doc' h
    rw [update_content_nil] at h
    cases h
    exact List.Forall₂.nil
  | cons line rest ih =>
    intro doc' h
    rw [update_content_cons] at h
    cases hl : process_lines store line with
    | error e => rw [hl] at h; cases h
    | ok line' =>
      rw [hl] at h
      cases hr : update_content store rest with
      | error e => rw [hr] at h; cases h
      | ok rest' =>
        rw [hr] at h
        cases h
        exact List.Forall₂.cons hl (ih rest' hr)


/-! ## Helper lemmas: activity selector -/

theorem insertEntry_perm (x : Entry) :
    ∀ l : List Entry, (insertEntry x l).Perm (x :: l) := by
  intro l
  induction l with
  | nil => exact List.Perm.refl _
  | cons y rest ih =>
    unfold insertEntry
    by_cases h : y.1 < x.1
    · rw [if_pos h]
      exact (ih.cons y).trans (List.Perm.swap x y rest)
    · rw [if_neg h]

theorem pySorted_cons (a : Entry) (l : List Entry) :
    pySorted (a :: l) = insertEntry a (pySorted l) := rfl

theorem pySorted_perm : ∀ l : List Entry, (pySorted l).Perm l := by
  intro l
  induction l with
  | nil => exact List.Perm.refl _
  | cons a rest ih =>
    rw [pySorted_cons]
    exact (insertEntry_perm a (pySorted rest)).trans (ih.cons a)

theorem insertEntry_pairwise (x : Entry) :
    ∀ l : List Entry, l.Pairwise (fun a b => a.1 ≤ b.1) →
      (insertEntry x l).Pairwise (fun a b => a.1 ≤ b.1) := by
  intro l
  induction l with
  | nil => intro _; simp [insertEntry]
  | cons y rest ih =>
    intro h
    rw [List.pairwise_cons] at h
    obtain ⟨hy, hrest⟩ := h
    unfold insertEntry
    by_cases hlt : y.1 < x.1
    · rw [if_pos hlt]
      rw [List.pairwise_cons]
      constructor
      · intro z hz
        rw [(insertEntry_perm x rest).mem_iff, List.mem_cons] at hz
        rcases hz with rfl | hz
        · exact le_of_lt hlt
        · exact hy z hz
      · exact ih hrest
    · rw [if_neg hlt]
      rw [List.pairwise_cons]
      constructor
      · intro z hz
        rw [List.mem_cons] at hz
        rcases hz with rfl | hz
        · exact le_of_not_lt hlt
        · exact le_trans (le_of_not_lt hlt) (hy z hz)
      · rw [List.pairwise_cons]
        exact ⟨hy, hrest⟩

theorem pySorted_pairwise :
    ∀ l : List Entry, (pySorted l).Pairwise (fun a b => a.1 ≤ b.1) := by
  intro l
  induction l with
  | nil => exact List.Pairwise.nil
  | cons a rest ih =>
    rw [pySorted_cons]
    exact insertEntry_pairwise a (pySorted rest) ih

/-- Unfolding equation for `insertEntry` on a non-empty list. -/
theorem insertEntry_cons (x y : Entry) (rest : List Entry) :
    insertEntry x (y :: rest) =
      if y.1 < x.1 then y :: insertEntry x rest else x :: y :: rest := rfl

/-- Inserting an element ahead of anything it is not greater than keeps the
elements of each key class in order: filtering by an exact key commutes with
insertion, with the inserted element going first among its equals. -/
theorem insertEntry_filter_key (x : Entry) (d : Int) :
    ∀ l : List Entry,
      (insertEntry x l).filter (fun e => e.1 == d) =
        if x.1 == d then x :: l.filter (fun e => e.1 == d)
        else l.filter (fun e => e.1 == d) := by
  intro l
  induction l with
  | nil =>
    by_cases hx : x.1 = d
    · simp [insertEntry, List.filter, hx]
    · have hxb : (x.1 == d) = false := by simp [hx]
      simp [insertEntry, List.filter, hxb]
  | cons y rest ih =>
    rw [insertEntry_cons]
    by_cases hlt : y.1 < x.1
    · rw [if_pos hlt]
      by_cases hyd : y.1 = d
      · have hxd : ¬(x.1 = d) := by omega
        rw [List.filter_cons_of_pos (by simp [hyd]), ih,
          if_neg (by simp [hxd]), if_neg (by simp [hxd]),
          List.filter_cons_of_pos (by simp [hyd])]
      · rw [List.filter_cons_of_neg (by simp [hyd]), ih]
        by_cases hxd : x.1 = d
        · rw [if_pos (by simp [hxd]), if_pos (by simp [hxd]),
            List.filter_cons_of_neg (by simp [hyd])]
        · rw [if_neg (by simp [hxd]), if_neg (by simp [hxd]),
            List.filter_cons_of_neg (by simp [hyd])]
    · rw [if_neg hlt]
      by_cases hxd : x.1 = d
      · rw [List.filter_cons_of_pos (by simp [hxd]), if_pos (by simp [hxd])]
      · rw [List.filter_cons_of_neg (by simp [hxd]), if_neg (by simp [hxd])]

theorem pySorted_filter_key (d : Int) :
    ∀ l : List Entry,
      (pySorted l).filter (fun e => e.1 == d) = l.filter (fun e => e.1 == d) := by
  intro l
  induction l with
  | nil => rfl
  | cons a rest ih =>
    rw [pySorted_cons, insertEntry_filter_key a d (pySorted rest), ih]
    by_cases ha : a.1 = d
    · rw [if_pos (by simp [ha]), List.filter_cons_of_pos (by simp [ha])]
    · rw [if_neg (by simp [ha]), List.filter_cons_of_neg (by simp [ha])]

theorem insertEntry_cons_of_le (x : Entry) :
    ∀ m : List Entry, (∀ z ∈ m, x.1 ≤ z.1) → insertEntry x m = x :: m := by
  intro m h
  cases m with
  | nil => rfl
  | cons z rest =>
    rw [insertEntry_cons,
      if_neg (not_lt_of_le (h z (List.mem_cons_self z rest)))]

/-- Filtering commutes with insertion into a sorted list (the filter predicate
need not mention the key). -/
theorem insertEntry_filter_comm (p : Entry → Bool) (x : Entry) :
    ∀ l : List Entry, l.Pairwise (fun a b => a.1 ≤ b.1) →
      (insertEntry x l).filter p =
        if p x then insertEntry x (l.filter p) else l.filter p := by
  intro l
  induction l with
  | nil =>
    intro _
    by_cases hx : p x <;> simp [insertEntry, List.filter, hx]
  | cons y rest ih =>
    intro hp
    rw [List.pairwise_cons] at hp
    obtain ⟨hy, hrest⟩ := hp
    rw [insertEntry_cons]
    by_cases hlt : y.1 < x.1
    · rw [if_pos hlt]
      by_cases hpy : p y
      · rw [List.filter_cons_of_pos hpy, ih hrest,
          List.filter_cons_of_pos hpy]
        by_cases hpx : p x
        · rw [if_pos hpx, if_pos hpx, insertEntry_cons, if_pos hlt]
        · rw [if_neg hpx, if_neg hpx]
      · rw [List.filter_cons_of_neg hpy, ih hrest,
          List.filter_cons_of_neg hpy]
    · rw [if_neg hlt]
      have hxy : x.1 ≤ y.1 := le_of_not_lt hlt
      by_cases hpx : p x
      · rw [List.filter_cons_of_pos hpx, if_pos hpx,
          insertEntry_cons_of_le x ((y :: rest).filter p)]
        intro z hz
        have hz' : z ∈ y :: rest := List.mem_of_mem_filter hz
        rw [List.mem_cons] at hz'
        rcases hz' with rfl | hz'
        · exact hxy
        · exact le_trans hxy (hy z hz')
      · rw [List.filter_cons_of_neg hpx, if_neg hpx]

theorem pySorted_filter_comm (p : Entry → Bool) :
    ∀ l : List Entry, pySorted (l.filter p) = (pySorted l).filter p := by
  intro l
  induction l with
  | nil => rfl
  | cons a rest ih =>
    rw [pySorted_cons,
      insertEntry_filter_comm p a (pySorted rest) (pySorted_pairwise rest), ← ih]
    by_cases hpa : p a
    · rw [List.filter_cons_of_pos hpa, if_pos hpa, pySorted_cons]
    · rw [List.filter_cons_of_neg hpa, if_neg hpa]

theorem get_first_n_aux_nil (count : Nat) : get_first_n_aux [] count = [] := rfl

theorem get_first_n_aux_cons_none (d : Int) (rest : List Entry) (count : Nat) :
    get_first_n_aux ((d, none) :: rest) count = get_first_n_aux rest count := rfl

theorem get_first_n_aux_cons_some (d : Int) (s : String) (rest : List Entry)
    (count : Nat) :
    get_first_n_aux ((d, some s) :: rest) count =
      if d < MAX_RECENT_ACTIVITY then
        if count + 1 ≤ MAX_REPOS_LISTED then s :: get_first_n_aux rest (count + 1)
        else get_first_n_aux rest (count + 1)
      else get_first_n_aux rest count := rfl

/-- The selection loop takes the first `MAX_REPOS_LISTED - count` qualifying
descriptions, in order. -/
theorem get_first_n_aux_eq :
    ∀ (l : List Entry) (count : Nat),
      get_first_n_aux l count =
        ((l.filter qualifies).take (MAX_REPOS_LISTED - count)).map
          entryDescription := by
  intro l
  induction l with
  | nil => intro count; simp [get_first_n_aux_nil]
  | cons e rest ih =>
    obtain ⟨d, desc⟩ := e
    intro count
    cases desc with
    | none =>
      rw [get_first_n_aux_cons_none,
        List.filter_cons_of_neg (by simp [qualifies])]
      exact ih count
    | some s =>
      rw [get_first_n_aux_cons_some]
      by_cases hd : d < MAX_RECENT_ACTIVITY
      · rw [if_pos hd, List.filter_cons_of_pos (by simp [qualifies, hd])]
        by_cases hcount : count + 1 ≤ MAX_REPOS_LISTED
        · rw [if_pos hcount]
          have htake : MAX_REPOS_LISTED - count = (MAX_REPOS_LISTED - (count + 1)) + 1 := by
            unfold MAX_REPOS_LISTED at hcount ⊢
            omega
          rw [htake, List.take_succ_cons, List.map_cons, ih (count + 1)]
          rfl
        · rw [if_neg hcount]
          have htake : MAX_REPOS_LISTED - count = 0 := by
            unfold MAX_REPOS_LISTED at hcount ⊢
            omega
          have htake' : MAX_REPOS_LISTED - (count + 1) = 0 := by
            unfold MAX_REPOS_LISTED at hcount ⊢
            omega
          rw [htake, List.take_zero, List.map_nil, ih (count + 1), htake',
            List.take_zero, List.map_nil]
      · rw [if_neg hd, List.filter_cons_of_neg (by simp [qualifies, hd])]
        exact ih count

theorem get_first_n_eq (l : List Entry) :
    get_first_n_recent_projects l =
      ((l.filter qualifies).take MAX_REPOS_LISTED).map entryDescription := by
  rw [get_first_n_recent_projects, get_first_n_aux_eq l 0, Nat.sub_zero]

theorem get_single_eq_find :
    ∀ l : List Entry,
      get_single_most_recent_project l =
        match l.find? (fun e => e.2.isSome) with
        | some e => [entryDescription e]
        | none => [] := by
  intro l
  induction l with
  | nil => rfl
  | cons e rest ih =>
    obtain ⟨d, desc⟩ := e
    cases desc with
    | none =>
      rw [List.find?_cons_of_neg _ (by simp)]
      exact ih
    | some s =>
      rw [List.find?_cons_of_pos _ (by simp)]
      rfl

theorem get_first_n_aux_filter_isSome :
    ∀ (l : List Entry) (count : Nat),
      get_first_n_aux (l.filter (fun e => e.2.isSome)) count =
        get_first_n_aux l count := by
  intro l
  induction l with
  | nil => intro count; rfl
  | cons e rest ih =>
    obtain ⟨d, desc⟩ := e
    intro count
    cases desc with
    | none =>
      rw [List.filter_cons_of_neg (by simp), get_first_n_aux_cons_none]
      exact ih count
    | some s =>
      rw [List.filter_cons_of_pos (by simp), get_first_n_aux_cons_some,
        get_first_n_aux_cons_some]
      by_cases hd : d < MAX_RECENT_ACTIVITY
      · rw [if_pos hd, if_pos hd]
        by_cases hcount : count + 1 ≤ MAX_REPOS_LISTED
        · rw [if_pos hcount, if_pos hcount, ih (count + 1)]
        · rw [if_neg hcount, if_neg hcount, ih (count + 1)]
      · rw [if_neg hd, if_neg hd, ih count]

theorem get_single_filter_isSome :
    ∀ l : List Entry,
      get_single_most_recent_project (l.filter (fun e => e.2.isSome)) =
        get_single_most_recent_project l := by
  intro l
  induction l with
  | nil => rfl
  | cons e rest ih =>
    obtain ⟨d, desc⟩ := e
    cases desc with
    | none =>
      rw [List.filter_cons_of_neg (by simp)]
      exact ih
    | some s =>
      rw [List.filter_cons_of_pos (by simp)]
      rfl

/-- Removing the self repository from the raw records is the same as keeping
only the entries with a present description: `create_repository_description`
returns `none` exactly on the self repository. -/
theorem map_repo_entry_filter (user : String) (daysSince : String → Int) :
    ∀ recs : List RepoRecord,
      (recs.filter (fun r => !(r.full_name == user ++ "/" ++ user))).map
          (repo_entry user daysSince) =
        (recs.map (repo_entry user daysSince)).filter (fun e => e.2.isSome) := by
  intro recs
  induction recs with
  | nil => rfl
  | cons r rest ih =>
    by_cases h : r.full_name = user ++ "/" ++ user
    · rw [List.filter_cons_of_neg (by simp [h]), List.map_cons,
        List.filter_cons_of_neg (by simp [repo_entry, create_repository_description, h]),
        ih]
    · rw [List.filter_cons_of_pos (by simp [h]), List.map_cons, List.map_cons,
        List.filter_cons_of_pos (by simp [repo_entry, create_repository_description, h]),
        ih]

theorem get_first_n_filter_isSome (l : List Entry) :
    get_first_n_recent_projects (l.filter (fun e => e.2.isSome)) =
      get_first_n_recent_projects l := by
  unfold get_first_n_recent_projects
  exact get_first_n_aux_filter_isSome l 0

/-! ## Claim theorems -/

/-- C1: the claim says that for a confirmed tag pair whose key is in the
store the two delimiter occurrences `<!-- key -->` are byte-identical in the
output and only the interior value span is replaced.  The code does not do
this: `_replace_tag_in_line` substitutes the store value for the whole match
of `tag + re.escape(value) + tag`, deleting both delimiter occurrences.  On
the line `<!-- x -->1<!-- x -->` with store `{x: "9"}` the output is `9`,
not the claimed `<!-- x -->9<!-- x -->`. -/
theorem C1_delimiters_deleted :
    process_lines [("x".data, "9".data)] "<!-- x -->1<!-- x -->".data
      = .ok "9".data
    ∧ ("9".data : Str) ≠ "<!-- x -->9<!-- x -->".data :=
  ⟨by rfl, by decide⟩

/-- C2: on the spec's multi-tag line every pair is replaced and no key bleeds
into the next pair (the straddling middle window is rejected), and the same
holds for adjacent back-to-back pairs — but the delimiters are deleted along
with the old values, so the outputs are `A9B8C` and `98` rather than the
claimed `A<!-- x -->9<!-- x -->B<!-- y -->8<!-- y -->C`. -/
theorem C2_multi_tag_line :
    process_lines [("x".data, "9".data), ("y".data, "8".data)]
      "A<!-- x -->1<!-- x -->B<!-- y -->2<!-- y -->C".data = .ok "A9B8C".data
    ∧ process_lines [("x".data, "9".data), ("y".data, "8".data)]
      "<!-- x -->1<!-- x --><!-- y -->2<!-- y -->".data = .ok "98".data
    ∧ ("A9B8C".data : Str)
      ≠ "A<!-- x -->9<!-- x -->B<!-- y -->8<!-- y -->C".data :=
  ⟨by rfl, by rfl, by decide⟩

/-- C3 (counterexample): the update pass is not idempotent for every document
and store.  On the single line `<!-- x -->a<!-- y -->b<!-- y -->c<!-- x -->`
with store `{x: "X", y: "Y"}` the first pass replaces the inner `y` pair
(deleting its delimiters) and yields `<!-- x -->aYc<!-- x -->`; the second
pass then sees a fresh confirmed `x` pair and yields `X`. -/
theorem C3_not_idempotent :
    update_content [("x".data, "X".data), ("y".data, "Y".data)]
      ["<!-- x -->a<!-- y -->b<!-- y -->c<!-- x -->".data]
      = .ok ["<!-- x -->aYc<!-- x -->".data]
    ∧ update_content [("x".data, "X".data), ("y".data, "Y".data)]
      ["<!-- x -->aYc<!-- x -->".data] = .ok ["X".data]
    ∧ ("X".data : Str) ≠ "<!-- x -->aYc<!-- x -->".data :=
  ⟨by rfl, by rfl, by decide⟩

/-- C3 (amended): running the update pass twice with the same store equals
running it once, provided no line of the first pass's output still contains
the opening delimiter (then the second pass is the identity via the fast
path).  The counterexample above shows the unconditional claim fails when a
replaced line retains tag material. -/
theorem C3_idempotent_amended (store : Store) (doc doc' : List Str)
    (h1 : update_content store doc = .ok doc')
    (h2 : doc'.all (fun l => !(pyIn open_seq l)) = true) :
    Except.bind (update_content store doc) (update_content store)
      = update_content store doc := by
  rw [h1]
  show update_content store doc' = Except.ok doc'
  exact update_content_no_open store doc' h2

/-- Witness for C3 (amended) at a concrete document and store. -/
theorem C3_idempotent_witness :
    Except.bind (update_content [("x".data, "9".data)]
        ["<!-- x -->1<!-- x -->".data])
      (update_content [("x".data, "9".data)])
      = update_content [("x".data, "9".data)] ["<!-- x -->1<!-- x -->".data] :=
  C3_idempotent_amended [("x".data, "9".data)]
    ["<!-- x -->1<!-- x -->".data] ["9".data] (by rfl) (by decide)

/-- C4 (counterexample): the claim says line processing raises no exception on
any malformed-tag line.  But on `<!-- x -->1<!-- y -->1` — whose `x` pair is
unmatched and whose extracted `(x, 1)` pair is stale (the literal pattern
`<!-- x -->1<!-- x -->` does not occur) — a store value `"\\"` for `x` is an
invalid replacement template, and `re.sub` parses the template before
scanning, so the call raises instead of leaving the span untouched. -/
theorem C4_exception_on_bad_template :
    process_lines [("x".data, "\\".data)] "<!-- x -->1<!-- y -->1".data
      = .error "bad escape (end of pattern)" := by rfl

/-- C4 (amended): provided every store key is free of regex metacharacters
(so the pattern compiles and matches literally) and every store value is free
of backslashes (so it is a valid replacement template), line processing never
raises; and a line none of whose confirmed pairs has its key in the store is
returned byte-identical — in particular `<!-- zzz -->old<!-- zzz -->` with
`zzz` absent from the store. -/
theorem C4_no_exception_amended (store : Store) (line : Str)
    (_hkeys : store.all (fun kv => plainKey kv.1) = true)
    (hvals : store.all (fun kv => kv.2.all (fun c => !(c == '\\'))) = true) :
    (∃ out, process_lines store line = .ok out)
    ∧ ((windows (pySplit open_seq line)).all (fun tup =>
          match extract_key_value_pair tup with
          | (some k, some _) => (lookupKey store k).isNone
          | _ => true) = true →
        process_lines store line = .ok line) := by
  constructor
  · by_cases hopen : pyIn open_seq line = false
    · exact ⟨line, process_lines_no_open store line hopen⟩
    · have heq : process_lines store line
          = process_windows store (windows (pySplit open_seq line)) line := by
        unfold process_lines
        rw [if_neg hopen]
      obtain ⟨out, hout⟩ :=
        process_windows_total store hvals (windows (pySplit open_seq line)) line
      exact ⟨out, heq ▸ hout⟩
  · intro hall
    by_cases hopen : pyIn open_seq line = false
    · exact process_lines_no_open store line hopen
    · have heq : process_lines store line
          = process_windows store (windows (pySplit open_seq line)) line := by
        unfold process_lines
        rw [if_neg hopen]
      rw [heq]
      exact process_windows_skip store _ line hall

/-- Witness for C4 (amended): the spec's unknown-key line is returned
unchanged under a plain, backslash-free store. -/
theorem C4_no_exception_witness :
    process_lines [("name".data, "Nico".data)]
      "<!-- zzz -->old<!-- zzz -->".data
      = .ok "<!-- zzz -->old<!-- zzz -->".data :=
  (C4_no_exception_amended [("name".data, "Nico".data)]
    "<!-- zzz -->old<!-- zzz -->".data (by decide) (by decide)).2 (by decide)

/-- C8 (counterexample): the claim says a window confirms a pending pair only
when the closing segment reproduces the same key.  In the window
`["x -->1", "y -->1"]` the closing segment splits to `["y", "1"]` — a
different key — yet because the value components agree, `_are_different_tags`
computes `(x != y) == (1 != 1)`, i.e. `True == False = False`, and the
pending `(x, 1)` pair is kept and confirmed. -/
theorem C8_spurious_confirmation :
    pySplit close_seq "y -->1".data = ["y".data, "1".data]
    ∧ ("x".data : Str) ≠ "y".data
    ∧ extract_key_value_pair ["x -->1".data, "y -->1".data]
        = (some "x".data, some "1".data) :=
  ⟨by decide, by decide, by decide⟩

/-- C8 (amended): for a window whose first segment splits into exactly a
pending `(k, v)` and whose second segment contains the close delimiter and
splits to `a :: b :: rest`, the pending pair is discarded exactly when
`(k != a) == (v != b)` holds — that is, when the key and value components
both match or both differ — and kept (hence confirmed at the window's end)
exactly when precisely one of `k = a` and `v = b` holds.  So a window
straddling two tags with both a different key and a different value
component is rejected as the claim says, and an ordinary well-formed window
(same key, different value component) is confirmed; but a closing segment
with a different key and an equal value component is spuriously confirmed,
a closing segment repeating both the key and the value component is
spuriously discarded, and a closing split with more than 2 parts is not
itself grounds for discarding. -/
theorem C8_window_decision_amended (s₁ s₂ k v a b : Str) (rest : List Str)
    (h1 : pyIn close_seq s₁ = true)
    (h2 : pySplit close_seq s₁ = [k, v])
    (h3 : pyIn close_seq s₂ = true)
    (h4 : pySplit close_seq s₂ = a :: b :: rest) :
    extract_key_value_pair [s₁, s₂]
      = if decide (k ≠ a) == decide (v ≠ b) then (none, none)
        else (some k, some v) := by
  cases rest with
  | nil =>
    simp [extract_key_value_pair, extract_key_value_pairAux, h1, h2, h3, h4,
      both_are_none, is_none, both_are_not_none, is_not_none,
      are_different_tags]
  | cons c more =>
    simp [extract_key_value_pair, extract_key_value_pairAux, h1, h2, h3, h4,
      both_are_none, is_none, both_are_not_none, is_not_none,
      are_different_tags]

/-- Witness for C8 (amended): a window whose closing segment repeats the
pending key is confirmed. -/
theorem C8_window_decision_witness :
    extract_key_value_pair ["k -->v".data, "k -->w".data]
      = if decide (("k".data : Str) ≠ "k".data)
            == decide (("v".data : Str) ≠ "w".data) then (none, none)
        else (some "k".data, some "v".data) :=
  C8_window_decision_amended "k -->v".data "k -->w".data
    "k".data "v".data "k".data "w".data []
    (by decide) (by decide) (by decide) (by decide)

/-- C9: a successful update pass returns exactly as many lines as it was
given, each output line is the processing result of the input line at the
same position (lines are never reordered, merged or split), and a line
without the opening delimiter is returned unchanged. -/
theorem C9_line_structure (store : Store) (doc doc' : List Str)
    (h : update_content store doc = .ok doc') :
    doc'.length = doc.length
    ∧ (∀ (i : Nat) (hi : i < doc.length) (hi' : i < doc'.length),
        process_lines store (doc.get ⟨i, hi⟩) = .ok (doc'.get ⟨i, hi'⟩))
    ∧ (∀ (i : Nat) (hi : i < doc.length) (hi' : i < doc'.length),
        pyIn open_seq (doc.get ⟨i, hi⟩) = false →
          doc'.get ⟨i, hi'⟩ = doc.get ⟨i, hi⟩) := by
  have hf := update_content_forall₂ store doc doc' h
  refine ⟨hf.length_eq.symm, fun i hi hi' => hf.get hi hi', ?_⟩
  intro i hi hi' hno
  have h2 := hf.get hi hi'
  rw [process_lines_no_open store _ hno] at h2
  exact (Except.ok.inj h2).symm

/-- Witness for C9 at a concrete two-line document. -/
theorem C9_line_structure_witness :
    update_content [("x".data, "9".data)]
      ["plain".data, "<!-- x -->1<!-- x -->".data]
      = .ok ["plain".data, "9".data]
    ∧ (["plain".data, "9".data] : List Str).length
      = (["plain".data, "<!-- x -->1<!-- x -->".data] : List Str).length :=
  ⟨by rfl,
    (C9_line_structure [("x".data, "9".data)]
      ["plain".data, "<!-- x -->1<!-- x -->".data]
      ["plain".data, "9".data] (by rfl)).1⟩

/-- C5 (counterexample): the claim says the selector returns exactly the
windowed selection joined — which would be the empty string when no entry
qualifies.  But with a single non-self repository updated 20 days ago the
windowed selection is empty and the code falls back to the single most
recent project, returning its description instead of the empty join. -/
theorem C5_fallback_breaks_selection :
    get_github_activity "u" (fun _ => 20) [⟨"a/b", "url", "t", none⟩]
      = "repository [a/b](url) which was updated 20 days ago"
    ∧ "repository [a/b](url) which was updated 20 days ago" ≠ "" :=
  ⟨by rfl, by decide⟩

/-- C5 (amended): the sort is a stable ascending sort by day count (it is a
permutation of the derived entries, pairwise non-decreasing, and preserves
the relative order of entries sharing any day value), and — provided at least
one entry qualifies (description present and day count below the window) —
the output is exactly the first at most `MAX_REPOS_LISTED` qualifying
descriptions in sorted order, joined with " as well as ".  When no entry
qualifies the fallback of C6 applies instead. -/
theorem C5_selection_amended (user : String) (daysSince : String → Int)
    (recs : List RepoRecord)
    (h : (all_repositories user daysSince recs).filter qualifies ≠ []) :
    (all_repositories user daysSince recs).Perm
      (recs.map (repo_entry user daysSince))
    ∧ (all_repositories user daysSince recs).Pairwise (fun a b => a.1 ≤ b.1)
    ∧ (∀ d : Int,
        (all_repositories user daysSince recs).filter (fun e => e.1 == d)
          = (recs.map (repo_entry user daysSince)).filter (fun e => e.1 == d))
    ∧ get_github_activity user daysSince recs
        = String.intercalate " as well as "
            ((((all_repositories user daysSince recs).filter qualifies).take
              MAX_REPOS_LISTED).map entryDescription) := by
  refine ⟨pySorted_perm _, pySorted_pairwise _,
    fun d => pySorted_filter_key d _, ?_⟩
  unfold get_github_activity
  rw [get_first_n_eq]
  have hpos : 0 < ((all_repositories user daysSince recs).filter qualifies).length :=
    List.length_pos.mpr h
  have hlen : ¬((((all_repositories user daysSince recs).filter
      qualifies).take MAX_REPOS_LISTED).map entryDescription).length = 0 := by
    rw [List.length_map, List.length_take]
    unfold MAX_REPOS_LISTED
    omega
  rw [if_neg hlen]

/-- Witness for C5 (amended) at a single recent repository. -/
theorem C5_selection_witness :
    get_github_activity "u" (fun _ => 1) [⟨"a/b", "url", "t", none⟩]
      = String.intercalate " as well as "
          ((((all_repositories "u" (fun _ => 1)
              [⟨"a/b", "url", "t", none⟩]).filter qualifies).take
            MAX_REPOS_LISTED).map entryDescription) :=
  (C5_selection_amended "u" (fun _ => 1) [⟨"a/b", "url", "t", none⟩]
    (by decide)).2.2.2

/-- C6: when no entry both has a description and lies inside the recency
window, the selector returns the description of the first entry in sorted
order whose description is present, and the empty string when no entry has a
description at all (in particular for the empty record list); the model is a
total function, so the computation cannot throw. -/
theorem C6_fallback (user : String) (daysSince : String → Int)
    (recs : List RepoRecord)
    (h : (all_repositories user daysSince recs).all
      (fun e => !(qualifies e)) = true) :
    get_github_activity user daysSince recs
      = match (all_repositories user daysSince recs).find?
          (fun e => e.2.isSome) with
        | some e => entryDescription e
        | none => "" := by
  have hfil : (all_repositories user daysSince recs).filter qualifies = [] := by
    rw [List.filter_eq_nil_iff]
    intro a ha
    have := List.all_eq_true.mp h a ha
    simpa using this
  unfold get_github_activity
  rw [get_first_n_eq, hfil]
  rw [get_single_eq_find]
  cases hfind : (all_repositories user daysSince recs).find?
      (fun e => e.2.isSome) with
  | none => rfl
  | some e => rfl

/-- Witness for C6: the empty record list yields the empty digest. -/
theorem C6_fallback_witness :
    get_github_activity "u" (fun _ => 0) []
      = match (all_repositories "u" (fun _ => 0) []).find?
          (fun e => e.2.isSome) with
        | some e => entryDescription e
        | none => "" :=
  C6_fallback "u" (fun _ => 0) [] (by decide)

/-- C7: the self repository `"{user}/{user}"` never contributes text to the
digest: deleting all self records from the raw list leaves the output
unchanged, for any record list and day-count function. -/
theorem C7_self_excluded (user : String) (daysSince : String → Int)
    (recs : List RepoRecord) :
    get_github_activity user daysSince recs
      = get_github_activity user daysSince
          (recs.filter (fun r => !(r.full_name == user ++ "/" ++ user))) := by
  unfold get_github_activity all_repositories
  rw [map_repo_entry_filter user daysSince recs,
    pySorted_filter_comm (fun e => e.2.isSome)
      (recs.map (repo_entry user daysSince)),
    get_first_n_filter_isSome, get_single_filter_isSome]

/-- C10: the substituted text is the `re.sub` replacement-template expansion
of the store value, not the value verbatim: the two-character escape `\n` in
the store value becomes a newline character, and a value consisting of a lone
backslash is an invalid template and makes the substitution raise. -/
theorem C10_template_semantics :
    process_lines [("x".data, ['a', '\\', 'n', 'b'])]
      "<!-- x -->1<!-- x -->".data = .ok ['a', '\n', 'b']
    ∧ (['a', '\n', 'b'] : Str) ≠ ['a', '\\', 'n', 'b']
    ∧ process_lines [("x".data, ['\\'])] "<!-- x -->1<!-- x -->".data
      = .error "bad escape (end of pattern)" :=
  ⟨by rfl, by decide, by rfl⟩

end ReadmeGen
